import Mathlib

/-!
Verification development for the vibe-coder-mcp request-classification core.

The development shallowly embeds two source units:

* `src/tools/sequential-thinking.ts` — the sequential reasoning engine
  (`processWithSequentialThinking`, `getNextThought`), modelled as a
  recursion over a finite list of mocked model responses; and
* the hybrid matcher (`hybridMatch`, `getMatchExplanation` module) — the
  cascading classifier, modelled as a total function parameterised over its
  external collaborators (rule matcher, intent detector, parameter
  extractors, and the sequential-thinking call), since those collaborators
  live outside the embedded core.

Machine floats in the source are modelled as rationals; the confidence
thresholds 0.8 / 0.6 / 0.4 and the literal confidences 0.5 / 0.2 are exact.
-/

/-! ### Sequential reasoning engine: data model (sequential-thinking.ts) -/

/-- One parsed model round, mirroring the `SequentialThought` interface:
required fields `thought`, `next_thought_needed`, `thought_number`,
`total_thoughts`, plus the optional revision/branch metadata. -/
structure SequentialThought where
  thought : String
  next_thought_needed : Bool
  thought_number : Int
  total_thoughts : Int
  is_revision : Option Bool := none
  revises_thought : Option Int := none
  branch_from_thought : Option Int := none
  branch_id : Option String := none
  needs_more_thoughts : Option Bool := none
deriving DecidableEq

/-- The content delivered in `choices[0].message.content` of a 2xx response:
either it JSON-parses to an object whose four required fields have the right
types (`valid`), or it does not (`invalid` carries the raw content string). -/
inductive ModelContent
  | valid (t : SequentialThought)
  | invalid (raw : String)
deriving DecidableEq

/-- One outcome of the HTTP call made by `getNextThought`: a 2xx response
with a non-empty `choices` array, a 2xx response without one, or an axios
transport/HTTP error carrying the optional response status and the
JSON-stringified response body (`JSON.stringify(data or empty object)`). -/
inductive ModelResponse
  | success (content : ModelContent)
  | noChoices
  | transportError (status : Option Nat) (body : String)
deriving DecidableEq

/-- The fallback thought synthesized when parsing/validation of the model
content fails: raw content as `thought`, `next_thought_needed = false`,
`thought_number = 1`, `total_thoughts = 1`. -/
def fallbackThought (raw : String) : SequentialThought :=
  { thought := raw
    next_thought_needed := false
    thought_number := 1
    total_thoughts := 1 }

/-- Renders `axiosError.response?.status` inside the template literal:
a number, or the text `undefined` when there was no response. -/
def statusText : Option Nat → String
  | some n => toString n
  | none => "undefined"

/-- Embedding of `getNextThought`, as a function of the model-call outcome.
Valid content is returned as parsed; invalid content yields the synthesized
fallback thought; a missing/empty `choices` array raises and is re-wrapped by
the outer catch; an axios error is re-thrown as `API error: <status> - <body>`. -/
def getNextThought : ModelResponse → Except String SequentialThought
  | .success (.valid t) => .ok t
  | .success (.invalid raw) => .ok (fallbackThought raw)
  | .noChoices => .error "Unknown error: Error: No response received from model"
  | .transportError status body =>
      .error ("API error: " ++ statusText status ++ " - " ++ body)

/-- The initial `currentThought` of `processWithSequentialThinking`:
empty text, `next_thought_needed = true`, `thought_number = 1`,
`total_thoughts = 5`. -/
def initialThought : SequentialThought :=
  { thought := ""
    next_thought_needed := true
    thought_number := 1
    total_thoughts := 5 }

/-- Result of one engine run: normal completion with the final thought's text
and the accumulated history, an exception escaping the loop with the thrown
message, or exhaustion of the (finite, mocked) response sequence while the
loop still wanted another round. -/
inductive RunResult
  | finished (result : String) (history : List SequentialThought)
  | failed (msg : String) (history : List SequentialThought)
  | outOfResponses (history : List SequentialThought)
deriving DecidableEq

/-- The history accumulated by a run, whatever its outcome. -/
def RunResult.history : RunResult → List SequentialThought
  | .finished _ h => h
  | .failed _ h => h
  | .outOfResponses h => h

/-- A run's outcome with the history erased, used to state that a quantity
(the advisory `total_thoughts` estimate) has no influence on control flow. -/
inductive RunOutcome
  | finished (result : String)
  | failed (msg : String)
  | outOfResponses
deriving DecidableEq

/-- Forgets the history of a `RunResult`. -/
def RunResult.outcome : RunResult → RunOutcome
  | .finished r _ => .finished r
  | .failed m _ => .failed m
  | .outOfResponses _ => .outOfResponses

/-- The `while (currentThought.next_thought_needed)` loop of
`processWithSequentialThinking`: while the current thought wants another
round, take the next mocked model response, run `getNextThought` on it
(propagating a thrown error), push the parsed thought onto the history and
make it current; once the flag is false, return the current thought's text. -/
def stRun (responses : List ModelResponse) (currentThought : SequentialThought)
    (thoughts : List SequentialThought) : RunResult :=
  if currentThought.next_thought_needed then
    match responses with
    | [] => .outOfResponses thoughts
    | r :: rest =>
      match getNextThought r with
      | .error msg => .failed msg thoughts
      | .ok nextThought => stRun rest nextThought (thoughts ++ [nextThought])
  else
    .finished currentThought.thought thoughts

/-- Embedding of `processWithSequentialThinking`: start the loop from the
initial thought with an empty history, against a mocked sequence of model
responses. -/
def processWithSequentialThinking (responses : List ModelResponse) : RunResult :=
  stRun responses initialThought []

/-! ### Hybrid classifier: data model (hybrid matcher module) -/

/-- The confidence bands used by the classifier (`HIGH_CONFIDENCE`). -/
def HIGH_CONFIDENCE : ℚ := 8/10

/-- Medium confidence threshold (`MEDIUM_CONFIDENCE`). -/
def MEDIUM_CONFIDENCE : ℚ := 6/10

/-- Low confidence threshold (`LOW_CONFIDENCE`). -/
def LOW_CONFIDENCE : ℚ := 4/10

/-- A candidate produced by the rule matcher or the intent detector
(the `MatchResult` type): tool name, confidence, and the matched pattern
(`none` models a missing/undefined pattern). -/
structure MatchResult where
  toolName : String
  confidence : ℚ
  matchedPattern : Option String
deriving DecidableEq

/-- The classifier's match method tag. The source's union type has exactly
the three values `rule`, `intent` and `sequential`; the default fallback is
tagged `sequential`. -/
inductive MatchMethod
  | rule
  | intent
  | sequential
deriving DecidableEq

/-- The classifier's final output (`EnhancedMatchResult extends MatchResult`):
the candidate plus extracted parameters, the match method, and the
confirmation flag. Parameter records are modelled as association lists. -/
structure EnhancedMatchResult extends MatchResult where
  parameters : List (String × String)
  matchMethod : MatchMethod
  requiresConfirmation : Bool
deriving DecidableEq

/-- Outcome of the `performSequentialThinking` call as seen by `hybridMatch`:
the engine's final text, or a thrown error (carrying its message). -/
inductive SeqOutcome
  | ok (result : String)
  | err (msg : String)
deriving DecidableEq

/-- The classifier's external collaborators, which live outside the embedded
core: `matchRequest`/`extractParameters` from the matching service,
`detectIntent`/`extractContextParameters` from the intent service, and the
sequential-thinking call (a function of the request, since the surrounding
prompt text is fixed). -/
structure ClassifierEnv where
  matchRequest : String → Option MatchResult
  extractParameters : String → String → List (String × String)
  detectIntent : String → Option MatchResult
  extractContextParameters : String → List (String × String)
  sequentialThinking : String → SeqOutcome

/-- ASCII lower-casing, the effect of `toLowerCase()` on the tool names the
classifier compares against. -/
def jsToLower (s : String) : String :=
  String.mk (s.data.map Char.toLower)

/-- Drops leading whitespace characters from a character list. -/
def dropLeadingWs : List Char → List Char
  | [] => []
  | c :: cs => if c.isWhitespace then dropLeadingWs cs else c :: cs

/-- The effect of `trim()`: whitespace removed from both ends. -/
def jsTrim (s : String) : String :=
  String.mk (((dropLeadingWs s.data).reverse |> dropLeadingWs).reverse)

/-- The characters before the first newline, i.e. `split("\n")[0]`. -/
def takeUntilNewline : List Char → List Char
  | [] => []
  | c :: cs => if c = Char.ofNat 10 then [] else c :: takeUntilNewline cs

/-- First line of a string, as produced by `split("\n")[0]`. -/
def firstLine (s : String) : String :=
  String.mk (takeUntilNewline s.data)

/-- Scans for the first occurrence of `": "` and returns the characters after
it, or `none` when the two-character sequence never occurs. -/
def dropThroughColonSpace : List Char → Option (List Char)
  | [] => none
  | c :: cs =>
    match cs with
    | c2 :: cs2 => if c = ':' ∧ c2 = ' ' then some cs2 else dropThroughColonSpace cs
    | [] => none

/-- The `replace(/^.*?: /, "")` step of the tool-name parse: remove everything
up to and including the first occurrence of `": "`, if any (the lazy `.*?`
matches the shortest such prefix; the input is a single line, so the
newline-free `.` of the regex is not restrictive). -/
def stripLabel (line : String) : String :=
  match dropThroughColonSpace line.data with
  | some cs => String.mk cs
  | none => line

/-- Whether `needle` occurs at the start of `hay`. -/
def firstMatches : List Char → List Char → Bool
  | [], _ => true
  | _ :: _, [] => false
  | a :: as, b :: bs => a = b && firstMatches as bs

/-- Whether `needle` occurs anywhere in `hay`. -/
def charsInclude (needle : List Char) : List Char → Bool
  | [] => firstMatches needle []
  | c :: cs => firstMatches needle (c :: cs) || charsInclude needle cs

/-- Substring test with the semantics of `String.prototype.includes`. -/
def strIncludes (s sub : String) : Bool :=
  charsInclude sub.data s.data

/-- The tool-name derivation of the sequential stage:
`sequentialResult.toLowerCase().trim().split("\n")[0].replace(/^.*?: /, "")`. -/
def parseToolName (sequentialResult : String) : String :=
  stripLabel (firstLine (jsTrim (jsToLower sequentialResult)))

/-- The default match returned when no stage accepts: `research-manager`,
confidence 0.2, pattern `fallback`, the whole request as the `query`
parameter, method `sequential`, confirmation required. -/
def defaultFallback (request : String) : EnhancedMatchResult :=
  { toolName := "research-manager"
    confidence := 2/10
    matchedPattern := some "fallback"
    parameters := [("query", request)]
    matchMethod := .sequential
    requiresConfirmation := true }

/-- Step 3 of `hybridMatch`: run sequential thinking inside a try/catch.
On a thrown error, fall through to the default fallback. On success, derive
the tool name from the result; accept it iff it is non-empty (JS string
truthiness) and contains `generator` or `manager`, with confidence 0.5,
pattern `sequential_thinking`, context-extracted parameters, method
`sequential` and forced confirmation; otherwise fall through to the default. -/
def sequentialStage (env : ClassifierEnv) (request : String) : EnhancedMatchResult :=
  match env.sequentialThinking request with
  | .err _ => defaultFallback request
  | .ok sequentialResult =>
    let toolName := parseToolName sequentialResult
    if !(toolName == "") && (strIncludes toolName "generator" || strIncludes toolName "manager") then
      { toolName := toolName
        confidence := 5/10
        matchedPattern := some "sequential_thinking"
        parameters := env.extractContextParameters request
        matchMethod := .sequential
        requiresConfirmation := true }
    else
      defaultFallback request

/-- Step 2 of `hybridMatch`: intent detection. Accept a candidate with
confidence at least `LOW_CONFIDENCE`, with context-extracted parameters and
confirmation required below `HIGH_CONFIDENCE`; otherwise go to step 3. -/
def intentStage (env : ClassifierEnv) (request : String) : EnhancedMatchResult :=
  match env.detectIntent request with
  | some intentResult =>
    if LOW_CONFIDENCE ≤ intentResult.confidence then
      { toMatchResult := intentResult
        parameters := env.extractContextParameters request
        matchMethod := .intent
        requiresConfirmation := decide (intentResult.confidence < HIGH_CONFIDENCE) }
    else
      sequentialStage env request
  | none => sequentialStage env request

/-- Embedding of `hybridMatch`. Step 1: rule matching. Accept a candidate
with confidence at least `MEDIUM_CONFIDENCE`; parameters come from pattern
slots when the matched pattern is truthy (non-null, non-empty — JS string
truthiness) and differs from `description_match`, and stay empty otherwise;
confirmation is required below `HIGH_CONFIDENCE`. Otherwise fall through to
the intent stage, then the sequential stage. -/
def hybridMatch (env : ClassifierEnv) (request : String) : EnhancedMatchResult :=
  match env.matchRequest request with
  | some matchResult =>
    if MEDIUM_CONFIDENCE ≤ matchResult.confidence then
      { toMatchResult := matchResult
        parameters :=
          match matchResult.matchedPattern with
          | some p =>
            if p ≠ "" ∧ p ≠ "description_match" then env.extractParameters request p else []
          | none => []
        matchMethod := .rule
        requiresConfirmation := decide (matchResult.confidence < HIGH_CONFIDENCE) }
    else
      intentStage env request
  | none => intentStage env request

/-- The closed set of tool identifiers enumerated in the sequential stage's
prompt (`Options are: ...`). -/
def promptToolIds : List String :=
  ["research-manager", "prd-generator", "user-stories-generator",
   "task-list-generator", "rules-generator", "workflow-manager"]

/-! ### Engine lemmas -/

/-- Unfolding: a current thought that no longer needs a round ends the loop. -/
lemma stRun_done (responses : List ModelResponse) (cur : SequentialThought)
    (hist : List SequentialThought) (h : cur.next_thought_needed = false) :
    stRun responses cur hist = .finished cur.thought hist := by
  unfold stRun
  simp [h]

/-- Unfolding: the mocked response sequence is exhausted mid-loop. -/
lemma stRun_nil (cur : SequentialThought) (hist : List SequentialThought)
    (h : cur.next_thought_needed = true) :
    stRun [] cur hist = .outOfResponses hist := by
  unfold stRun
  simp [h]

/-- Unfolding: a thrown model-call error ends the run with that message. -/
lemma stRun_cons_error (r : ModelResponse) (rest : List ModelResponse)
    (cur : SequentialThought) (hist : List SequentialThought) (msg : String)
    (h : cur.next_thought_needed = true) (he : getNextThought r = .error msg) :
    stRun (r :: rest) cur hist = .failed msg hist := by
  unfold stRun
  simp [h, he]

/-- Unfolding: a successfully parsed thought is appended and becomes current. -/
lemma stRun_cons_ok (r : ModelResponse) (rest : List ModelResponse)
    (cur : SequentialThought) (hist : List SequentialThought) (t : SequentialThought)
    (h : cur.next_thought_needed = true) (ht : getNextThought r = .ok t) :
    stRun (r :: rest) cur hist = stRun rest t (hist ++ [t]) := by
  conv_lhs => unfold stRun
  simp [h, ht]

/-- Specification of a run's history as a function of the response sequence:
the parsed rounds in call order, cut after the first round whose continue
flag is false (or at the first thrown error / end of responses). -/
def specHistory : List ModelResponse → List SequentialThought
  | [] => []
  | r :: rest =>
    match getNextThought r with
    | .error _ => []
    | .ok t => t :: (if t.next_thought_needed then specHistory rest else [])

/-- The history accumulated by the loop is exactly the already-accumulated
prefix followed by the parsed rounds of the remaining responses, in call
order. -/
lemma stRun_history_eq (responses : List ModelResponse) :
    ∀ (cur : SequentialThought) (hist : List SequentialThought),
      cur.next_thought_needed = true →
      (stRun responses cur hist).history = hist ++ specHistory responses := by
  induction responses with
  | nil =>
    intro cur hist h
    rw [stRun_nil cur hist h]
    simp [specHistory, RunResult.history]
  | cons r rest ih =>
    intro cur hist h
    cases ht : getNextThought r with
    | error msg =>
      rw [stRun_cons_error r rest cur hist msg h ht]
      simp [specHistory, ht, RunResult.history]
    | ok t =>
      rw [stRun_cons_ok r rest cur hist t h ht]
      cases hn : t.next_thought_needed with
      | true =>
        rw [ih t (hist ++ [t]) hn]
        simp [specHistory, ht, hn]
      | false =>
        rw [stRun_done rest t (hist ++ [t]) hn]
        simp [specHistory, ht, hn, RunResult.history]

/-- A finished run that started with the continue flag up returns the text
of the last appended round. -/
lemma stRun_finished_last (responses : List ModelResponse) :
    ∀ (cur : SequentialThought) (hist histOut : List SequentialThought) (txt : String),
      cur.next_thought_needed = true →
      stRun responses cur hist = .finished txt histOut →
      ∃ pre last, histOut = pre ++ [last] ∧ txt = last.thought := by
  induction responses with
  | nil =>
    intro cur hist histOut txt h hrun
    rw [stRun_nil cur hist h] at hrun
    exact absurd hrun (by simp)
  | cons r rest ih =>
    intro cur hist histOut txt h hrun
    cases ht : getNextThought r with
    | error msg =>
      rw [stRun_cons_error r rest cur hist msg h ht] at hrun
      exact absurd hrun (by simp)
    | ok t =>
      rw [stRun_cons_ok r rest cur hist t h ht] at hrun
      cases hn : t.next_thought_needed with
      | true => exact ih t (hist ++ [t]) histOut txt hn hrun
      | false =>
        rw [stRun_done rest t (hist ++ [t]) hn] at hrun
        refine ⟨hist, t, ?_, ?_⟩
        · exact (RunResult.finished.injEq _ _ _ _).mp hrun |>.2.symm
        · exact (RunResult.finished.injEq _ _ _ _).mp hrun |>.1.symm

/-- Rewrites the advisory `total_thoughts` estimate of a round. -/
def setTotalT (f : Int → Int) (t : SequentialThought) : SequentialThought :=
  { t with total_thoughts := f t.total_thoughts }

/-- Rewrites the advisory `total_thoughts` estimate inside a well-formed model
response, leaving every other response unchanged. -/
def setTotalR (f : Int → Int) : ModelResponse → ModelResponse
  | .success (.valid t) => .success (.valid (setTotalT f t))
  | r => r

/-- The run outcome (termination mode, final text, error message) depends
only on each round's text and continue flag, never on the `total_thoughts`
estimates: rewriting them arbitrarily leaves the outcome unchanged. -/
lemma stRun_outcome_setTotal (f : Int → Int) (responses : List ModelResponse) :
    ∀ (cur cur' : SequentialThought) (hist hist' : List SequentialThought),
      cur'.thought = cur.thought →
      cur'.next_thought_needed = cur.next_thought_needed →
      (stRun (responses.map (setTotalR f)) cur' hist').outcome
        = (stRun responses cur hist).outcome := by
  induction responses with
  | nil =>
    intro cur cur' hist hist' hth hn
    cases h : cur.next_thought_needed with
    | true =>
      rw [stRun_nil cur hist h, List.map_nil, stRun_nil cur' hist' (hn.trans h)]
      rfl
    | false =>
      rw [stRun_done [] cur hist h, List.map_nil,
        stRun_done [] cur' hist' (hn.trans h), hth]
      rfl
  | cons r rest ih =>
    intro cur cur' hist hist' hth hn
    cases h : cur.next_thought_needed with
    | false =>
      rw [stRun_done (r :: rest) cur hist h,
        stRun_done ((r :: rest).map (setTotalR f)) cur' hist' (hn.trans h), hth]
      rfl
    | true =>
      rw [List.map_cons]
      cases ht : getNextThought r with
      | error msg =>
        have ht' : getNextThought (setTotalR f r) = .error msg := by
          cases r with
          | success content =>
            cases content with
            | valid t => simp [getNextThought] at ht
            | invalid raw => simp [getNextThought] at ht
          | noChoices => exact ht
          | transportError status body => exact ht
        rw [stRun_cons_error r rest cur hist msg h ht,
          stRun_cons_error (setTotalR f r) (rest.map (setTotalR f)) cur' hist' msg
            (hn.trans h) ht']
        rfl
      | ok t =>
        cases r with
        | success content =>
          cases content with
          | valid u =>
            have hu : u = t := by simpa [getNextThought] using ht
            subst hu
            have ht' : getNextThought (setTotalR f (.success (.valid u)))
                = .ok (setTotalT f u) := by
              simp [getNextThought, setTotalR]
            rw [stRun_cons_ok _ rest cur hist u h ht,
              stRun_cons_ok _ (rest.map (setTotalR f)) cur' hist' (setTotalT f u)
                (hn.trans h) ht']
            exact ih u (setTotalT f u) (hist ++ [u]) (hist' ++ [setTotalT f u]) rfl rfl
          | invalid raw =>
            have hu : fallbackThought raw = t := by simpa [getNextThought] using ht
            have ht' : getNextThought (setTotalR f (.success (.invalid raw)))
                = .ok (fallbackThought raw) := by
              simp [getNextThought, setTotalR]
            rw [stRun_cons_ok _ rest cur hist t h ht,
              stRun_cons_ok _ (rest.map (setTotalR f)) cur' hist' (fallbackThought raw)
                (hn.trans h) ht']
            exact ih t (fallbackThought raw) (hist ++ [t]) (hist' ++ [fallbackThought raw])
              (by rw [← hu]) (by rw [← hu])
        | noChoices => simp [getNextThought] at ht
        | transportError status body => simp [getNextThought] at ht

/-! ### Claims about the sequential reasoning engine -/

/-- A concrete terminal round used to witness engine claims. -/
def doneThought : SequentialThought :=
  { thought := "done"
    next_thought_needed := false
    thought_number := 1
    total_thoughts := 1 }

/-- C2: the loop continues exactly while the current round's continue flag
(`next_thought_needed`) is true. (i) If the model's first round has the flag
down, the engine makes exactly one call and finishes with that round's text
and a one-round history. (ii) A finished run always returns the text of the
last appended round. (iii) The advisory `total_thoughts` estimate is never
used to stop the loop: rewriting every estimate arbitrarily leaves the run
outcome unchanged. -/
theorem C2_termination_by_continue_flag_only :
    (∀ (t : SequentialThought) (rest : List ModelResponse),
        t.next_thought_needed = false →
        processWithSequentialThinking (.success (.valid t) :: rest)
          = .finished t.thought [t])
    ∧ (∀ (responses : List ModelResponse) (txt : String) (hist : List SequentialThought),
        processWithSequentialThinking responses = .finished txt hist →
        ∃ pre last, hist = pre ++ [last] ∧ txt = last.thought)
    ∧ (∀ (f : Int → Int) (responses : List ModelResponse),
        (processWithSequentialThinking (responses.map (setTotalR f))).outcome
          = (processWithSequentialThinking responses).outcome) := by
  refine ⟨?_, ?_, ?_⟩
  · intro t rest h
    show stRun _ _ _ = _
    rw [stRun_cons_ok (.success (.valid t)) rest initialThought [] t rfl rfl,
      stRun_done rest t ([] ++ [t]) h]
    simp
  · intro responses txt hist hrun
    exact stRun_finished_last responses initialThought [] hist txt rfl hrun
  · intro f responses
    exact stRun_outcome_setTotal f responses initialThought initialThought [] [] rfl rfl

/-- C2 witness: a mocked model answering a terminal round on round 1 makes
the engine finish after exactly one round with that round's text. -/
theorem C2_termination_witness :
    processWithSequentialThinking [.success (.valid doneThought)]
      = .finished "done" [doneThought]
    ∧ ∃ pre last, ([doneThought] : List SequentialThought) = pre ++ [last]
        ∧ "done" = last.thought :=
  ⟨C2_termination_by_continue_flag_only.1 doneThought [] rfl,
   C2_termination_by_continue_flag_only.2.1 [.success (.valid doneThought)]
     "done" [doneThought]
     (C2_termination_by_continue_flag_only.1 doneThought [] rfl)⟩

/-- C3: malformed model content (non-JSON, or JSON lacking a required field)
does not make the engine throw: `getNextThought` returns the synthesized
terminal round carrying the raw content with the continue flag down, and the
loop finishes in that round, returning the raw content verbatim. -/
theorem C3_malformed_output_recovered :
    (∀ raw, getNextThought (.success (.invalid raw)) = .ok (fallbackThought raw))
    ∧ (∀ (raw : String) (rest : List ModelResponse) (cur : SequentialThought)
        (hist : List SequentialThought),
        cur.next_thought_needed = true →
        stRun (.success (.invalid raw) :: rest) cur hist
          = .finished raw (hist ++ [fallbackThought raw])) := by
  constructor
  · intro raw
    rfl
  · intro raw rest cur hist h
    rw [stRun_cons_ok (.success (.invalid raw)) rest cur hist (fallbackThought raw) h rfl,
      stRun_done rest (fallbackThought raw) _ rfl]
    rfl

/-- C3 witness: a run whose first mocked response is unparseable text
finishes immediately and returns that text verbatim. -/
theorem C3_malformed_witness :
    processWithSequentialThinking [.success (.invalid "not json")]
      = .finished "not json" ([] ++ [fallbackThought "not json"]) :=
  C3_malformed_output_recovered.2 "not json" [] initialThought [] rfl

/-- C8: a transport/HTTP failure makes `getNextThought` throw an error
carrying the HTTP status and stringified response body, and the error
propagates out of the engine loop with no retry (the remaining responses
are never consumed and the history is left as accumulated). -/
theorem C8_transport_error_propagates :
    (∀ (status : Option Nat) (body : String),
        getNextThought (.transportError status body)
          = .error ("API error: " ++ statusText status ++ " - " ++ body))
    ∧ (∀ (status : Option Nat) (body : String) (rest : List ModelResponse)
        (cur : SequentialThought) (hist : List SequentialThought),
        cur.next_thought_needed = true →
        stRun (.transportError status body :: rest) cur hist
          = .failed ("API error: " ++ statusText status ++ " - " ++ body) hist) := by
  constructor
  · intro status body
    rfl
  · intro status body rest cur hist h
    exact stRun_cons_error _ rest cur hist _ h rfl

/-- C8 witness: an HTTP 500 with body `timeout` on the first round fails the
whole run with the formatted API error message. -/
theorem C8_transport_error_witness :
    processWithSequentialThinking [.transportError (some 500) "timeout"]
      = .failed "API error: 500 - timeout" [] :=
  (C8_transport_error_propagates.2 (some 500) "timeout" [] initialThought [] rfl).trans
    (by rfl)

/-- A concrete well-formed round numbered 5 with the continue flag up, used
to exhibit a non-monotone history. -/
def riseThought : SequentialThought :=
  { thought := "step"
    next_thought_needed := true
    thought_number := 5
    total_thoughts := 5 }

/-- C9 counterexample: a run whose first round is well-formed with
`thought_number = 5` and whose second response is malformed accumulates the
history `[5, 1]` — the synthesized terminal round is hard-coded to index 1 —
so the history is not monotonically increasing in round index. -/
theorem C9_counterexample_history_not_monotone :
    (processWithSequentialThinking
        [.success (.valid riseThought), .success (.invalid "oops")]).history
      = [riseThought, fallbackThought "oops"]
    ∧ ¬ List.Chain' (fun a b : SequentialThought => a.thought_number < b.thought_number)
        [riseThought, fallbackThought "oops"] := by
  constructor
  · rfl
  · intro hchain
    have h := (List.chain'_cons.mp hchain).1
    norm_num [riseThought, fallbackThought] at h

/-- C9 amended: the history is append-only in model-call order — it is
exactly the parsed rounds of the consumed responses, one per call, cut after
the first round whose continue flag is false — with round indices taken
verbatim from the model's responses (index 1 for synthesized rounds); no
monotonicity of indices is enforced. -/
theorem C9_history_is_rounds_in_call_order (responses : List ModelResponse) :
    (processWithSequentialThinking responses).history = specHistory responses := by
  have h := stRun_history_eq responses initialThought [] rfl
  simpa using h

/-! ### Classifier lemmas -/

/-- The rule stage does not accept: the rule matcher returns null, or a
candidate whose confidence is below `MEDIUM_CONFIDENCE`. -/
def ruleDeclines (env : ClassifierEnv) (request : String) : Prop :=
  ∀ mr, env.matchRequest request = some mr → mr.confidence < MEDIUM_CONFIDENCE

/-- The intent stage does not accept: the intent detector returns null, or a
candidate whose confidence is below `LOW_CONFIDENCE`. -/
def intentDeclines (env : ClassifierEnv) (request : String) : Prop :=
  ∀ mr, env.detectIntent request = some mr → mr.confidence < LOW_CONFIDENCE

/-- When neither the rule stage nor the intent stage accepts, the classifier
is the sequential stage. -/
lemma hybridMatch_declines (env : ClassifierEnv) (request : String)
    (h1 : ruleDeclines env request) (h2 : intentDeclines env request) :
    hybridMatch env request = sequentialStage env request := by
  unfold hybridMatch intentStage
  cases hm : env.matchRequest request with
  | none =>
    dsimp only
    cases hi : env.detectIntent request with
    | none => rfl
    | some ir =>
      dsimp only
      rw [if_neg (not_le.mpr (h2 ir hi))]
  | some mr =>
    dsimp only
    rw [if_neg (not_le.mpr (h1 mr hm))]
    cases hi : env.detectIntent request with
    | none => rfl
    | some ir =>
      dsimp only
      rw [if_neg (not_le.mpr (h2 ir hi))]

/-- The sequential stage always tags its result `sequential` and always
requires confirmation, on both the accepting and the fallback path. -/
lemma sequentialStage_invariant (env : ClassifierEnv) (request : String) :
    (sequentialStage env request).matchMethod = .sequential
    ∧ (sequentialStage env request).requiresConfirmation = true := by
  unfold sequentialStage defaultFallback
  cases env.sequentialThinking request with
  | err msg => exact ⟨rfl, rfl⟩
  | ok s =>
    dsimp only
    split
    · exact ⟨rfl, rfl⟩
    · exact ⟨rfl, rfl⟩

/-- Confirmation invariant of the intent and sequential stages combined. -/
lemma intentStage_invariant (env : ClassifierEnv) (request : String) :
    ((intentStage env request).matchMethod = .sequential →
      (intentStage env request).requiresConfirmation = true)
    ∧ ((intentStage env request).confidence < HIGH_CONFIDENCE →
      (intentStage env request).requiresConfirmation = true) := by
  unfold intentStage
  cases hi : env.detectIntent request with
  | none =>
    have h := sequentialStage_invariant env request
    exact ⟨fun _ => h.2, fun _ => h.2⟩
  | some ir =>
    dsimp only
    split
    · constructor
      · intro h
        exact MatchMethod.noConfusion h
      · intro h
        exact decide_eq_true h
    · have h := sequentialStage_invariant env request
      exact ⟨fun _ => h.2, fun _ => h.2⟩

/-! ### Claims about the hybrid classifier -/

/-- C4: every classifier output requires confirmation whenever its method is
`sequential` (which includes the default fallback) and whenever its
confidence is below `HIGH_CONFIDENCE`; equivalently, confirmation can be
skipped only for a rule or intent match at confidence at least 0.8. -/
theorem C4_confirmation_invariant (env : ClassifierEnv) (request : String) :
    ((hybridMatch env request).matchMethod = .sequential →
      (hybridMatch env request).requiresConfirmation = true)
    ∧ ((hybridMatch env request).confidence < HIGH_CONFIDENCE →
      (hybridMatch env request).requiresConfirmation = true) := by
  unfold hybridMatch
  cases hm : env.matchRequest request with
  | none => exact intentStage_invariant env request
  | some mr =>
    dsimp only
    split
    · constructor
      · intro h
        exact MatchMethod.noConfusion h
      · intro h
        exact decide_eq_true h
    · exact intentStage_invariant env request

/-- An environment where the rule matcher and intent detector find nothing
and the sequential-thinking call throws. -/
def emptyEnv : ClassifierEnv :=
  { matchRequest := fun _ => none
    extractParameters := fun _ _ => []
    detectIntent := fun _ => none
    extractContextParameters := fun _ => []
    sequentialThinking := fun _ => .err "network failure" }

/-- An environment where both matchers return candidates strictly below
their stage thresholds and the sequential-thinking call throws. -/
def lowEnv : ClassifierEnv :=
  { matchRequest := fun _ =>
      some { toolName := "research-manager", confidence := 3/10,
             matchedPattern := some "description_match" }
    extractParameters := fun _ _ => []
    detectIntent := fun _ =>
      some { toolName := "prd-generator", confidence := 1/10, matchedPattern := none }
    extractContextParameters := fun _ => []
    sequentialThinking := fun _ => .err "HTTP 500" }

/-- C4 witness: with every stage declining, the classifier's fallback output
has confidence 0.2 < 0.8 and the invariant forces confirmation. -/
theorem C4_confirmation_witness :
    (hybridMatch emptyEnv "hello").requiresConfirmation = true :=
  (C4_confirmation_invariant emptyEnv "hello").2
    (show (2:ℚ)/10 < HIGH_CONFIDENCE by norm_num [HIGH_CONFIDENCE])

/-- C1: when the rule matcher returns null or a candidate below 0.6, the
intent detector returns null or a candidate below 0.4, and the
sequential-thinking call throws, `hybridMatch` returns the default fallback
match — tool `research-manager`, confidence 0.2, pattern `fallback`,
confirmation required, parameters mapping `query` to the whole original
request — so classification is total and never throws on this path. -/
theorem C1_default_fallback_on_total_decline (env : ClassifierEnv) (request msg : String)
    (h1 : ruleDeclines env request) (h2 : intentDeclines env request)
    (h3 : env.sequentialThinking request = .err msg) :
    hybridMatch env request =
      { toolName := "research-manager"
        confidence := 2/10
        matchedPattern := some "fallback"
        parameters := [("query", request)]
        matchMethod := .sequential
        requiresConfirmation := true } := by
  rw [hybridMatch_declines env request h1 h2]
  unfold sequentialStage
  rw [h3]
  exact rfl

/-- C1 witness: concrete environment where no stage can accept and the
model call fails; the whole request is carried as the `query` parameter. -/
theorem C1_default_fallback_witness :
    hybridMatch emptyEnv "summarize this" =
      { toolName := "research-manager"
        confidence := 2/10
        matchedPattern := some "fallback"
        parameters := [("query", "summarize this")]
        matchMethod := .sequential
        requiresConfirmation := true } :=
  C1_default_fallback_on_total_decline emptyEnv "summarize this" "network failure"
    (fun mr h => absurd h (by simp [emptyEnv]))
    (fun mr h => absurd h (by simp [emptyEnv]))
    rfl

/-- C5: a thrown sequential-thinking error is caught inside the sequential
stage; when the earlier stages declined, the classifier returns the default
fallback instead of propagating the exception. -/
theorem C5_engine_error_caught (env : ClassifierEnv) (request msg : String)
    (h1 : ruleDeclines env request) (h2 : intentDeclines env request)
    (h3 : env.sequentialThinking request = .err msg) :
    hybridMatch env request = defaultFallback request := by
  rw [hybridMatch_declines env request h1 h2]
  unfold sequentialStage
  rw [h3]

/-- C5 witness: below-threshold candidates at both matcher stages and an
HTTP 500 from the engine still yield the default fallback. -/
theorem C5_engine_error_witness :
    hybridMatch lowEnv "make a plan" = defaultFallback "make a plan" :=
  C5_engine_error_caught lowEnv "make a plan" "HTTP 500"
    (fun mr h => by
      simp only [lowEnv] at h
      injection h with h
      subst h
      show (3:ℚ)/10 < MEDIUM_CONFIDENCE
      norm_num [MEDIUM_CONFIDENCE])
    (fun mr h => by
      simp only [lowEnv] at h
      injection h with h
      subst h
      show (1:ℚ)/10 < LOW_CONFIDENCE
      norm_num [LOW_CONFIDENCE])
    rfl

/-- C6: when the rule matcher returns a candidate with confidence at least
0.6, the classifier accepts at the rule stage: the candidate is returned
verbatim with method `rule`, confirmation exactly when confidence is below
0.8, parameters extracted from the pattern's slots when the matched pattern
is a literal (truthy, non-`description_match`) pattern and empty when the
pattern is the generic description match or null; and the output does not
depend on the intent detector, the context extractor or the reasoning
engine — they are never invoked. -/
theorem C6_rule_stage_accepts (env : ClassifierEnv) (request : String) (mr : MatchResult)
    (hm : env.matchRequest request = some mr) (hc : MEDIUM_CONFIDENCE ≤ mr.confidence) :
    (hybridMatch env request).toMatchResult = mr
    ∧ (hybridMatch env request).matchMethod = .rule
    ∧ (hybridMatch env request).requiresConfirmation
        = decide (mr.confidence < HIGH_CONFIDENCE)
    ∧ (∀ p, mr.matchedPattern = some p → p ≠ "" → p ≠ "description_match" →
        (hybridMatch env request).parameters = env.extractParameters request p)
    ∧ ((mr.matchedPattern = none ∨ mr.matchedPattern = some "description_match") →
        (hybridMatch env request).parameters = [])
    ∧ (∀ env' : ClassifierEnv, env'.matchRequest = env.matchRequest →
        env'.extractParameters = env.extractParameters →
        hybridMatch env' request = hybridMatch env request) := by
  have hcore : hybridMatch env request =
      { toMatchResult := mr
        parameters :=
          match mr.matchedPattern with
          | some p =>
            if p ≠ "" ∧ p ≠ "description_match" then env.extractParameters request p else []
          | none => []
        matchMethod := .rule
        requiresConfirmation := decide (mr.confidence < HIGH_CONFIDENCE) } := by
    unfold hybridMatch
    rw [hm]
    dsimp only
    rw [if_pos hc]
  refine ⟨?_, ?_, ?_, ?_, ?_, ?_⟩
  · rw [hcore]
  · rw [hcore]
  · rw [hcore]
  · intro p hp hne hnd
    rw [hcore]
    dsimp only
    rw [hp]
    dsimp only
    rw [if_pos ⟨hne, hnd⟩]
  · intro hcase
    rw [hcore]
    dsimp only
    cases hcase with
    | inl h => rw [h]
    | inr h =>
      rw [h]
      dsimp only
      rw [if_neg (fun hand => hand.2 rfl)]
  · intro env' h1 h2
    unfold hybridMatch
    rw [h1, hm]
    dsimp only
    rw [if_pos hc, if_pos hc, h2]

/-- An environment whose rule matcher always reports a high-confidence
literal pattern match, with a stand-in slot extractor. -/
def ruleEnv : ClassifierEnv :=
  { matchRequest := fun _ =>
      some { toolName := "research-manager", confidence := 9/10,
             matchedPattern := some "research {topic}" }
    extractParameters := fun req _ => [("topic", req)]
    detectIntent := fun _ => none
    extractContextParameters := fun _ => []
    sequentialThinking := fun _ => .err "never reached" }

/-- C6 witness: a concrete high-confidence rule match is returned verbatim
with method `rule` and slot-extracted parameters. -/
theorem C6_rule_stage_witness :
    (hybridMatch ruleEnv "research quantum computing").toMatchResult
        = { toolName := "research-manager", confidence := 9/10,
            matchedPattern := some "research {topic}" }
    ∧ (hybridMatch ruleEnv "research quantum computing").matchMethod = .rule
    ∧ (hybridMatch ruleEnv "research quantum computing").parameters
        = ruleEnv.extractParameters "research quantum computing" "research {topic}" := by
  have h := C6_rule_stage_accepts ruleEnv "research quantum computing"
      { toolName := "research-manager", confidence := 9/10,
        matchedPattern := some "research {topic}" }
      rfl (show MEDIUM_CONFIDENCE ≤ (9:ℚ)/10 by norm_num [MEDIUM_CONFIDENCE])
  exact ⟨h.1, h.2.1,
    h.2.2.2.1 "research {topic}" rfl (by simp) (by simp)⟩

/-- C7: in the sequential stage (both earlier stages having declined), the
candidate tool name is derived from the engine's result by lower-casing,
trimming, taking the first line and removing any leading `label: ` prefix;
the match is accepted exactly when that token is non-empty and contains
`generator` or `manager`, and an accepted match carries that token as
`toolName`, confidence 0.5, pattern `sequential_thinking`, context-extracted
parameters and forced confirmation; otherwise the default fallback results. -/
theorem C7_sequential_stage_parse (env : ClassifierEnv) (request s : String)
    (h1 : ruleDeclines env request) (h2 : intentDeclines env request)
    (h3 : env.sequentialThinking request = .ok s) :
    hybridMatch env request =
      if !(parseToolName s == "")
          && (strIncludes (parseToolName s) "generator"
             || strIncludes (parseToolName s) "manager") then
        { toolName := parseToolName s
          confidence := 5/10
          matchedPattern := some "sequential_thinking"
          parameters := env.extractContextParameters request
          matchMethod := .sequential
          requiresConfirmation := true }
      else defaultFallback request := by
  rw [hybridMatch_declines env request h1 h2]
  unfold sequentialStage
  rw [h3]

/-- An environment where only the sequential stage can act and the engine
names a tool with a `Tool: ` label prefix and capital letters. -/
def seqEnv : ClassifierEnv :=
  { matchRequest := fun _ => none
    extractParameters := fun _ _ => []
    detectIntent := fun _ => none
    extractContextParameters := fun _ => [("query", "plan the product")]
    sequentialThinking := fun _ => .ok "Tool: Research-Manager" }

/-- C7 witness: `Tool: Research-Manager` is normalized to `research-manager`,
which contains `manager` and is accepted at confidence 0.5 with forced
confirmation and context parameters. -/
theorem C7_sequential_stage_witness :
    hybridMatch seqEnv "plan the product" =
      { toolName := "research-manager"
        confidence := 5/10
        matchedPattern := some "sequential_thinking"
        parameters := [("query", "plan the product")]
        matchMethod := .sequential
        requiresConfirmation := true } := by
  rw [C7_sequential_stage_parse seqEnv "plan the product" "Tool: Research-Manager"
    (fun mr h => absurd h (by simp [seqEnv]))
    (fun mr h => absurd h (by simp [seqEnv]))
    rfl]
  exact rfl

/-- An environment where only the sequential stage can act and the engine
answers with a tool identifier outside the prompt's closed set. -/
def assetEnv : ClassifierEnv :=
  { matchRequest := fun _ => none
    extractParameters := fun _ _ => []
    detectIntent := fun _ => none
    extractContextParameters := fun _ => []
    sequentialThinking := fun _ => .ok "asset-manager" }

/-- C10: the sequential stage's acceptance test is only a substring check
for `generator`/`manager`, so an engine output naming `asset-manager` — not
one of the six tool identifiers enumerated in the stage's own prompt — is
accepted verbatim as `toolName` with confidence 0.5 and method `sequential`. -/
theorem C10_unregistered_tool_accepted :
    (hybridMatch assetEnv "catalog the assets").toolName = "asset-manager"
    ∧ (hybridMatch assetEnv "catalog the assets").confidence = 5/10
    ∧ (hybridMatch assetEnv "catalog the assets").matchMethod = .sequential
    ∧ (hybridMatch assetEnv "catalog the assets").matchedPattern
        = some "sequential_thinking"
    ∧ "asset-manager" ∉ promptToolIds := by
  refine ⟨rfl, rfl, rfl, rfl, ?_⟩
  decide
